import Mathlib

/-!
Verification development for the AdaWriter text-editing engine
(`ada_writer.py`).  Text is modelled as `List Char` (one Python string),
documents as `List (List Char)` (the `lines` list).  The pixel-measurement
collaborator (`font.getbbox(...)[2]`) is an abstract function
`meas : List Char → Nat`, and `max_width` an abstract `Nat`, exactly as the
wrapper only ever uses them through those two interfaces.
-/

namespace AdaWriter

/-- Model of the whitespace class stripped by Python's `str.rstrip()`
(ASCII core: space, tab, newline, carriage return, vertical tab, form feed). -/
def isPyWs (c : Char) : Bool :=
  c == ' ' || c == '\t' || c == '\n' || c == '\r' || c == '\x0b' || c == '\x0c'

/-- Model of Python `str.rstrip()`: drop trailing whitespace. -/
def rstrip (l : List Char) : List Char :=
  (l.reverse.dropWhile isPyWs).reverse

/-- Model of Python `line.split(' ')`: split on every single space,
keeping empty chunks (so `"a  b"` gives three chunks, the middle empty). -/
def splitSp : List Char → List (List Char)
  | [] => [[]]
  | c :: rest =>
    if c = ' ' then [] :: splitSp rest
    else
      match splitSp rest with
      | [] => [[c]]
      | w :: ws => (c :: w) :: ws

/-- Model of Python `sep.join(pieces)` for a one-character separator. -/
def joinWith (c : Char) : List (List Char) → List Char
  | [] => []
  | [w] => w
  | w :: ws => w ++ c :: joinWith c ws

/-- Helper for stating join equations: the tail of a separator-join,
`tailJoin [w2, w3] = ' ' :: w2 ++ ' ' :: w3`. -/
def tailJoin : List (List Char) → List Char
  | [] => []
  | w :: ws => ' ' :: (w ++ tailJoin ws)

/-- Inner loop of `TextEditor._get_wrapped_lines` over the words of one
logical line: `cur` is `current_line_text`; a word that would overflow
flushes `cur.rstrip()` and starts a fresh display line with that word. -/
def wrapWords (meas : List Char → Nat) (maxw : Nat) :
    List (List Char) → List Char → List (List Char)
  | [], cur => [rstrip cur]
  | w :: ws, cur =>
    if maxw < meas (cur ++ w) then
      rstrip cur :: wrapWords meas maxw ws (w ++ [' '])
    else
      wrapWords meas maxw ws (cur ++ (w ++ [' ']))

/-- Body of `TextEditor._get_wrapped_lines` for one source line: an empty
line yields exactly one empty display line; otherwise the line is split on
single spaces and greedily wrapped. -/
def wrap_one_line (meas : List Char → Nat) (maxw : Nat) (line : List Char) :
    List (List Char) :=
  if line = [] then [[]] else wrapWords meas maxw (splitSp line) []

/-- Loop of `TextEditor._get_wrapped_lines` over the source lines,
carrying the source index `i`; returns (display_lines, source_line_map). -/
def get_wrapped_lines_from (meas : List Char → Nat) (maxw : Nat) :
    Nat → List (List Char) → List (List Char) × List Nat
  | _, [] => ([], [])
  | i, line :: rest =>
    (wrap_one_line meas maxw line ++ (get_wrapped_lines_from meas maxw (i + 1) rest).1,
     (wrap_one_line meas maxw line).map (fun _ => i) ++
       (get_wrapped_lines_from meas maxw (i + 1) rest).2)

/-- Model of `TextEditor._get_wrapped_lines(source_lines)`: soft-wraps the
whole document, returning the display lines and, in parallel, the source
line index each display line was wrapped from. -/
def get_wrapped_lines (meas : List Char → Nat) (maxw : Nat)
    (source_lines : List (List Char)) : List (List Char) × List Nat :=
  get_wrapped_lines_from meas maxw 0 source_lines

/-- The display lines of logical line `i`: those entries of the wrapper
output whose source_line_map entry equals `i`. -/
def displayLinesOf (p : List (List Char) × List Nat) (i : Nat) :
    List (List Char) :=
  (p.1.zip p.2).filterMap (fun q => if q.2 = i then some q.1 else none)

/-- Model of Python `list.insert(n, x)`: insert before index `n`,
appending when `n` is past the end. -/
def py_insert (n : Nat) (x : α) : List α → List α
  | [] => [x]
  | a :: l =>
    match n with
    | 0 => x :: a :: l
    | m + 1 => a :: py_insert m x l

/-- The mutable editor state threaded through `TextEditor._main_loop` and
mutated by `TextEditor._handle_editor_input` (the `editor_state` dict
fields that the input handler touches). -/
structure EditorState where
  lines : List (List Char)
  cursor_x : Nat
  cursor_y : Nat
  cursor_visible : Bool
  layout_changed : Bool
  content_changed : Bool
  timers_changed : Bool
deriving Repr, DecidableEq

/-- The key-press actions dispatched by `TextEditor._handle_editor_input`
(a printable key arrives as the string the key map resolves it to). -/
inductive Key where
  | up
  | down
  | left
  | right
  | enter
  | backspace
  | f1
  | f2
  | chars (s : List Char)
deriving Repr, DecidableEq

/-- Model of `TextEditor._handle_editor_input` for one key-press event:
the handler first marks the cursor visible and the content changed, then
dispatches on the key code.  Local `lines`, `cursor_x`, `cursor_y` are the
values read at entry, as in the Python source. -/
def handle_editor_input (key : Key) (st0 : EditorState) : EditorState :=
  let lines := st0.lines
  let cursor_x := st0.cursor_x
  let cursor_y := st0.cursor_y
  let st := { st0 with cursor_visible := true, content_changed := true }
  match key with
  | .up =>
    if 0 < cursor_y then
      { st with cursor_y := cursor_y - 1,
                cursor_x := min cursor_x (lines.getD (cursor_y - 1) []).length }
    else st
  | .down =>
    if cursor_y < lines.length - 1 then
      { st with cursor_y := cursor_y + 1,
                cursor_x := min cursor_x (lines.getD (cursor_y + 1) []).length }
    else st
  | .left =>
    if 0 < cursor_x then
      { st with cursor_x := cursor_x - 1 }
    else if 0 < cursor_y then
      { st with cursor_y := cursor_y - 1,
                cursor_x := (lines.getD (cursor_y - 1) []).length }
    else st
  | .right =>
    if cursor_x < (lines.getD cursor_y []).length then
      { st with cursor_x := cursor_x + 1 }
    else if cursor_y < lines.length - 1 then
      { st with cursor_y := cursor_y + 1, cursor_x := 0 }
    else st
  | .enter =>
    let current_line := lines.getD cursor_y []
    { st with layout_changed := true,
              lines := py_insert (cursor_y + 1) (current_line.drop cursor_x)
                         (lines.set cursor_y (current_line.take cursor_x)),
              cursor_y := cursor_y + 1,
              cursor_x := 0 }
  | .backspace =>
    if 0 < cursor_x then
      let cur := lines.getD cursor_y []
      { st with lines := lines.set cursor_y
                           (cur.take (cursor_x - 1) ++ cur.drop cursor_x),
                cursor_x := cursor_x - 1 }
    else if 0 < cursor_y then
      let original_line_content := lines.getD cursor_y []
      let popped := lines.eraseIdx cursor_y
      let prev_line_len := (popped.getD (cursor_y - 1) []).length
      { st with lines := popped.set (cursor_y - 1)
                           ((popped.getD (cursor_y - 1) []) ++ original_line_content),
                cursor_y := cursor_y - 1,
                cursor_x := prev_line_len,
                layout_changed := true }
    else st
  | .f1 => { st with timers_changed := true }
  | .f2 => { st with timers_changed := true }
  | .chars s =>
    let cur := lines.getD cursor_y []
    { st with lines := lines.set cursor_y
                         (cur.take cursor_x ++ s ++ cur.drop cursor_x),
              cursor_x := cursor_x + s.length }

/-- Model of Python `list.index(target)` returning `none` where Python
raises `ValueError`. -/
def py_index (target : Nat) : List Nat → Option Nat
  | [] => none
  | x :: rest => if x = target then some 0 else (py_index target rest).map (· + 1)

/-- Scanning loop of `TextEditor._calculate_cursor_on_display`: walk the
display lines from `display_y` onward, consuming `char_offset` characters
(each display line counts its length plus one for the implicit joining
space). -/
def calc_cursor_go (display_lines : List (List Char)) (source_line_map : List Nat)
    (sy sx : Nat) : Nat → Nat → Nat → Nat × Nat
  | 0, _, _ =>
    (display_lines.length - 1, (display_lines.getD (display_lines.length - 1) []).length)
  | rem + 1, display_y, char_offset =>
    if source_line_map.getD display_y 0 ≠ sy then
      (display_y - 1, (display_lines.getD (display_y - 1) []).length)
    else
      let current_display_line := display_lines.getD display_y []
      if sx ≤ char_offset + current_display_line.length then
        (display_y, sx - char_offset)
      else
        calc_cursor_go display_lines source_line_map sy sx rem (display_y + 1)
          (char_offset + current_display_line.length + 1)

/-- Model of `TextEditor._calculate_cursor_on_display` (the source's
logical-to-display coordinate mapper).  The scanning loop
`for display_y in range(first, len(display_lines))` is run through
`calc_cursor_go` with the number of remaining iterations
(`len(display_lines) - first`) passed as structural fuel; exhausting it is
exactly the loop running off the end (the fall-through return). -/
def calculate_cursor_on_display (display_lines : List (List Char))
    (source_line_map : List Nat) (source_cursor_y source_cursor_x : Nat) :
    Nat × Nat :=
  if display_lines = [] ∨ ¬ source_cursor_y < source_line_map.length then (0, 0)
  else
    match py_index source_cursor_y source_line_map with
    | none => (0, 0)
    | some first => calc_cursor_go display_lines source_line_map
        source_cursor_y source_cursor_x (display_lines.length - first) first 0

/-- Modelled from the spec: the code has no `display_to_logical`; this
definition follows section 4.3 of the spec word for word (logical line is
the map entry at the display row; logical column is the sum of earlier
same-line display-line lengths plus one joining space each, plus the target
display column clamped to the row's length).  It exists only to be compared
against the behaviour implemented in `handle_editor_input`. -/
def display_to_logical (source_map : List Nat) (display_lines : List (List Char))
    (display_row target_display_col : Nat) : Nat × Nat :=
  let logical_line := source_map.getD display_row 0
  let before := (List.range display_row).foldl
      (fun acc j => if source_map.getD j 0 = logical_line
                    then acc + (display_lines.getD j []).length + 1 else acc) 0
  (logical_line,
   before + min target_display_col (display_lines.getD display_row []).length)

/-- Modelled from the spec: vertical `down` movement in display space as
section 4.3 prescribes it (wrap, map the cursor to display coordinates,
step one display row, convert back with the previous display column as the
target).  Used only as the comparison point for claim C2. -/
def move_down_spec (meas : List Char → Nat) (maxw : Nat) (st : EditorState) :
    EditorState :=
  let p := get_wrapped_lines meas maxw st.lines
  let dpos := calculate_cursor_on_display p.1 p.2 st.cursor_y st.cursor_x
  let lpos := display_to_logical p.2 p.1 (dpos.1 + 1) dpos.2
  { st with cursor_y := lpos.1, cursor_x := lpos.2 }

/-- Repaint decision of one `TextEditor._main_loop` iteration. -/
inductive Repaint where
  | full
  | part
  | idle
deriving Repr, DecidableEq

/-- Value of `TextEditor.FULL_REFRESH_INTERVAL`. -/
def FULL_REFRESH_INTERVAL : Nat := 100

/-- Rendering-decision step of `TextEditor._main_loop` (the
`is_full_refresh_needed` / partial / no-repaint classification), returning
the decision together with the new value of the source's
`partial_refresh_count` counter (called `count` here). -/
def render_step (layout_changed content_changed timers_changed : Bool)
    (count : Nat) : Repaint × Nat :=
  let is_full_refresh_needed :=
    layout_changed || decide (FULL_REFRESH_INTERVAL ≤ count)
  let is_content_refresh_needed := content_changed
  let is_header_footer_refresh_needed := timers_changed
  if is_full_refresh_needed || is_content_refresh_needed
      || is_header_footer_refresh_needed then
    if is_full_refresh_needed then (Repaint.full, 0)
    else (Repaint.part, count + 1)
  else (Repaint.idle, count)

/-- Value of `config.WORD_COUNT_DISPLAY_DURATION` (milliseconds). -/
def WORD_COUNT_DISPLAY_DURATION : Nat := 3000

/-- Value of `config.AUTO_SAVE_INDICATOR_DURATION` (milliseconds). -/
def AUTO_SAVE_INDICATOR_DURATION : Nat := 3000

/-- The `AdaWriter` status-indicator fields (save, word-count, clock):
activation flags, activation timestamps (`pygame.time.get_ticks()` values,
modelled as `Nat` milliseconds) and the cached texts. -/
structure Indicators where
  save_indicator_active : Bool
  save_indicator_timer : Nat
  word_count_active : Bool
  word_count_timer : Nat
  current_word_count_text : List Char
  time_display_active : Bool
  time_display_timer : Nat
  current_time_text : List Char
deriving Repr, DecidableEq

/-- Word-counting loop behind `len("\n".join(lines).split())`: counts the
maximal runs of non-whitespace characters (`in_w` says whether the scan is
inside such a run). -/
def count_words_go : List Char → Bool → Nat
  | [], _ => 0
  | c :: rest, in_w =>
    if isPyWs c then count_words_go rest false
    else (if in_w then 0 else 1) + count_words_go rest true

/-- Model of `len("\n".join(lines).split())` from the F1 handler. -/
def word_count (lines : List (List Char)) : Nat :=
  count_words_go (joinWith '\n' lines) false

/-- Model of the F1 indicator text `f"Words: {word_count}"`. -/
def words_text (lines : List (List Char)) : List Char :=
  ('W' :: 'o' :: 'r' :: 'd' :: 's' :: ':' :: ' ' :: []) ++ (Nat.repr (word_count lines)).data

/-- Model of the F1 branch of `TextEditor._handle_editor_input`: cache the
word-count text, activate the word-count indicator and stamp its timer.
Note that it does not touch the clock indicator's fields. -/
def trigger_word_count (lines : List (List Char)) (now : Nat)
    (app : Indicators) : Indicators :=
  { app with current_word_count_text := words_text lines,
             word_count_active := true,
             word_count_timer := now }

/-- Model of the F2 branch of `TextEditor._handle_editor_input`: cache the
current wall-clock text (supplied by the clock collaborator), activate the
clock indicator and stamp its timer.  It does not touch the word-count
indicator's fields. -/
def trigger_time_display (time_text : List Char) (now : Nat)
    (app : Indicators) : Indicators :=
  { app with current_time_text := time_text,
             time_display_active := true,
             time_display_timer := now }

/-- Model of `AdaWriter._get_active_indicator_text`: first unexpired active
indicator in the fixed order word-count, clock, saved; empty text when
none.  (Python compares `now - timer <= duration` on signed millisecond
ints; with `Nat` truncated subtraction a stamp in the future also passes
the test, exactly as the negative difference does in Python.) -/
def get_active_indicator_text (now : Nat) (app : Indicators) : List Char :=
  if app.word_count_active ∧ now - app.word_count_timer ≤ WORD_COUNT_DISPLAY_DURATION then
    app.current_word_count_text
  else if app.time_display_active ∧ now - app.time_display_timer ≤ WORD_COUNT_DISPLAY_DURATION then
    app.current_time_text
  else if app.save_indicator_active ∧ now - app.save_indicator_timer ≤ AUTO_SAVE_INDICATOR_DURATION then
    ('S' :: 'a' :: 'v' :: 'e' :: 'd' :: [])
  else []

/-- The text `TextEditor._main_loop` writes on save:
`'\n'.join(editor_state['lines']) + '\n'` (identical on the ESC exit save
and on the inactivity autosave). -/
def save_text (lines : List (List Char)) : List Char :=
  joinWith '\n' lines ++ ['\n']

/-- Model of the ESC branch of `TextEditor._main_loop` (lines 856-861):
when there are unsaved changes the joined text is written and the save
indicator activated; the write is NOT wrapped in any try/except, so a
storage error propagates out of the loop (modelled by `Except.error`).
Returns the surviving in-memory lines and whether the save indicator was
activated. -/
def esc_exit_step (writeFile : List Char → Except (List Char) Unit)
    (content_changed_since_last_save : Bool) (lines : List (List Char)) :
    Except (List Char) (List (List Char) × Bool) :=
  if content_changed_since_last_save then
    match writeFile (save_text lines) with
    | .ok _ => .ok (lines, true)
    | .error e => .error e
  else .ok (lines, false)

/-- Model of the inactivity-autosave branch of `TextEditor._main_loop`
(lines 879-883): when there are unsaved changes and the inactivity
threshold has passed, the joined text is written, then the save indicator
is activated, the unsaved-changes flag cleared and `timers_changed` set.
The write is not guarded, so a storage error propagates before any of
those updates happen.  Returns (lines, content_changed_since_last_save,
save indicator activated). -/
def autosave_step (writeFile : List Char → Except (List Char) Unit)
    (content_changed_since_last_save idle_long : Bool)
    (lines : List (List Char)) :
    Except (List Char) (List (List Char) × Bool × Bool) :=
  if content_changed_since_last_save && idle_long then
    match writeFile (save_text lines) with
    | .ok _ => .ok (lines, false, true)
    | .error e => .error e
  else .ok (lines, content_changed_since_last_save, false)

/-- Model of the Unicode line-break class honoured by Python
`str.splitlines` (newline, carriage return, vertical tab, form feed, the
separator control characters, NEL, LS, PS). -/
def isLineBreak (c : Char) : Bool :=
  c == '\n' || c == '\r' || c == '\x0b' || c == '\x0c' || c == '\x1c' ||
  c == '\x1d' || c == '\x1e' || c == '\x85' || c == '\u2028' || c == '\u2029'

/-- Model of Python `str.splitlines()`: split at every line-break
character (a `"\r\n"` pair counts as a single break); a trailing break
produces no extra empty line. -/
def py_splitlines : List Char → List (List Char)
  | [] => []
  | '\r' :: '\n' :: rest => [] :: py_splitlines rest
  | c :: rest =>
    if isLineBreak c = true then [] :: py_splitlines rest
    else
      match py_splitlines rest with
      | [] => [[c]]
      | l :: ls => (c :: l) :: ls

/-- Model of Python `lines[-1].startswith("---")`. -/
def startsWithDashes (l : List Char) : Bool :=
  match l with
  | '-' :: '-' :: '-' :: _ => true
  | _ => false

/-- Model of the document-loading prologue of `TextEditor.run`: the read
result is `Except.error` where Python raises `IOError`/`FileNotFoundError`
(that whole branch is caught and turned into a fresh single-empty-line
document with the cursor at (0,0)).  On success the content is split into
lines (empty content giving one empty line), the journal time header is
appended when needed, and the cursor is placed at the end of the last
line.  Returns (lines, cursor_x, cursor_y). -/
def load_document (readResult : Except (List Char) (List Char))
    (is_journal : Bool) (time_text : List Char) :
    List (List Char) × Nat × Nat :=
  match readResult with
  | .ok initial_content =>
    let lines0 := if initial_content = [] then [[]] else py_splitlines initial_content
    let lines :=
      if is_journal ∧ (lines0 = [] ∨ startsWithDashes (lines0.getLastD []) = false) then
        lines0 ++ [[], ('-' :: '-' :: '-' :: ' ' :: []) ++ time_text ++ (' ' :: '-' :: '-' :: '-' :: []), []]
      else lines0
    let cursor_y := lines.length - 1
    let cursor_x := (lines.getD cursor_y []).length
    (lines, cursor_x, cursor_y)
  | .error _ => ([[]], 0, 0)

/-- Concrete editor state for claim C2: document `["aaaa bbbb", "xy"]`
with the cursor at logical position (0,2) (display row 0, display column 2
once wrapped at width 4 with character-count measurement). -/
def c2_state : EditorState :=
  { lines := [['a', 'a', 'a', 'a', ' ', 'b', 'b', 'b', 'b'], ['x', 'y']],
    cursor_x := 2, cursor_y := 0, cursor_visible := true,
    layout_changed := false, content_changed := false, timers_changed := false }

/-- Concrete editor state for claim C5: document `["Hello, world."]` with
the cursor at logical position (0,7). -/
def c5_state : EditorState :=
  { lines := [['H', 'e', 'l', 'l', 'o', ',', ' ', 'w', 'o', 'r', 'l', 'd', '.']],
    cursor_x := 7, cursor_y := 0, cursor_visible := true,
    layout_changed := false, content_changed := false, timers_changed := false }

/-- Concrete editor state for claim C6's witness: one-line document with
the cursor at (0,0). -/
def c6_state : EditorState :=
  { lines := [['a']], cursor_x := 0, cursor_y := 0, cursor_visible := true,
    layout_changed := false, content_changed := false, timers_changed := false }

/-- Concrete indicator state with nothing active. -/
def indicators0 : Indicators :=
  { save_indicator_active := false, save_indicator_timer := 0,
    word_count_active := false, word_count_timer := 0,
    current_word_count_text := [],
    time_display_active := false, time_display_timer := 0,
    current_time_text := [] }

/-- Concrete indicator state with just the word-count indicator active. -/
def indicators_wc : Indicators :=
  { save_indicator_active := false, save_indicator_timer := 0,
    word_count_active := true, word_count_timer := 0,
    current_word_count_text := ['w'],
    time_display_active := false, time_display_timer := 0,
    current_time_text := [] }

/-- Concrete one-line document for the indicator claims. -/
def c4_lines : List (List Char) := [['h', 'i']]

/-- Concrete clock text for the indicator claims. -/
def c4_time_text : List Char := ['1', ':', '0', '0']

/-! Helper lemmas about the Python-string primitives. -/

theorem joinWith_cons (c : Char) (w : List Char) (ws : List (List Char))
    (h : ws ≠ []) : joinWith c (w :: ws) = w ++ c :: joinWith c ws := by
  cases ws with
  | nil => exact absurd rfl h
  | cons v ws' => rfl

theorem joinWith_eq_tailJoin (w : List Char) (ws : List (List Char)) :
    joinWith ' ' (w :: ws) = w ++ tailJoin ws := by
  induction ws generalizing w with
  | nil => simp [joinWith, tailJoin]
  | cons v ws' ih => rw [joinWith_cons _ _ _ (by simp), ih v, tailJoin]

theorem splitSp_ne_nil (l : List Char) : splitSp l ≠ [] := by
  cases l with
  | nil => simp [splitSp]
  | cons c rest =>
    rw [splitSp]
    split
    · simp
    · split <;> simp

theorem joinWith_splitSp (l : List Char) : joinWith ' ' (splitSp l) = l := by
  induction l with
  | nil => simp [splitSp, joinWith]
  | cons c rest ih =>
    rw [splitSp]
    by_cases hc : c = ' '
    · rw [if_pos hc, joinWith_cons _ _ _ (splitSp_ne_nil rest), ih, hc]
      rfl
    · rw [if_neg hc]
      cases hs : splitSp rest with
      | nil => exact absurd hs (splitSp_ne_nil rest)
      | cons w ws =>
        rw [hs] at ih
        cases ws with
        | nil =>
          simp only [joinWith] at ih ⊢
          rw [ih]
        | cons v ws' =>
          rw [joinWith_cons _ _ _ (by simp)] at ih ⊢
          rw [List.cons_append, ih]

theorem rstrip_append_space (x : List Char) : rstrip (x ++ [' ']) = rstrip x := by
  unfold rstrip
  rw [List.reverse_append]
  simp [List.dropWhile_cons, isPyWs]

theorem rstrip_no_ws (x : List Char) (h : ∀ c ∈ x, isPyWs c = false) :
    rstrip x = x := by
  unfold rstrip
  cases hx : x.reverse with
  | nil =>
    have : x = [] := by simpa using congrArg List.reverse hx
    simp [this]
  | cons a t =>
    have ha : a ∈ x := by
      rw [← List.mem_reverse, hx]; exact List.mem_cons_self a t
    rw [List.dropWhile_cons, h a ha]
    simp only [Bool.false_eq_true, if_false]
    rw [← hx, List.reverse_reverse]

theorem rstrip_append_no_ws (y w : List Char) (hne : w ≠ [])
    (h : ∀ c ∈ w, isPyWs c = false) : rstrip (y ++ w) = y ++ w := by
  unfold rstrip
  rw [List.reverse_append]
  cases hw : w.reverse with
  | nil =>
    exact absurd (by simpa using congrArg List.reverse hw) hne
  | cons a t =>
    have ha : a ∈ w := by
      rw [← List.mem_reverse, hw]; exact List.mem_cons_self a t
    rw [List.cons_append, List.dropWhile_cons, h a ha]
    simp only [Bool.false_eq_true, if_false]
    have hrw : a :: (t ++ y.reverse) = ((y ++ w).reverse) := by
      rw [List.reverse_append, hw, List.cons_append]
    rw [hrw, List.reverse_reverse]

theorem wrapWords_ne_nil (meas : List Char → Nat) (maxw : Nat)
    (ws : List (List Char)) (cur : List Char) :
    wrapWords meas maxw ws cur ≠ [] := by
  induction ws generalizing cur with
  | nil => simp [wrapWords]
  | cons w ws ih =>
    rw [wrapWords]
    split
    · simp
    · exact ih _

/-- Invariant of the greedy wrapping loop: starting from an accumulator
`c0 ++ " "` whose stripped form is `c0`, joining the emitted display lines
with single spaces yields `c0` followed by the remaining words each
preceded by one space. -/
theorem wrapWords_join (meas : List Char → Nat) (maxw : Nat)
    (ws : List (List Char)) :
    ∀ c0 : List Char,
      (∀ w ∈ ws, w ≠ [] ∧ ∀ c ∈ w, isPyWs c = false) →
      rstrip c0 = c0 →
      joinWith ' ' (wrapWords meas maxw ws (c0 ++ [' '])) = c0 ++ tailJoin ws := by
  induction ws with
  | nil =>
    intro c0 _ hc0
    simp [wrapWords, rstrip_append_space, hc0, tailJoin, joinWith]
  | cons w ws ih =>
    intro c0 hws hc0
    obtain ⟨hwne, hwns⟩ := hws w (List.mem_cons_self _ _)
    have hws' : ∀ v ∈ ws, v ≠ [] ∧ ∀ c ∈ v, isPyWs c = false :=
      fun v hv => hws v (List.mem_cons_of_mem _ hv)
    rw [wrapWords]
    split
    · rw [joinWith_cons _ _ _ (wrapWords_ne_nil meas maxw ws (w ++ [' ']))]
      rw [rstrip_append_space, hc0, ih w hws' (rstrip_no_ws w hwns)]
      rw [tailJoin]
    · have harr : (c0 ++ [' ']) ++ (w ++ [' ']) = (c0 ++ ' ' :: w) ++ [' '] := by
        simp
      have hstr : rstrip (c0 ++ ' ' :: w) = c0 ++ ' ' :: w := by
        have h1 : c0 ++ ' ' :: w = (c0 ++ [' ']) ++ w := by simp
        rw [h1]; exact rstrip_append_no_ws _ _ hwne hwns
      rw [harr, ih (c0 ++ ' ' :: w) hws' hstr, tailJoin]
      simp

/-- Per-line reconstruction: when every space-separated word of the line is
nonempty and whitespace-free and the first word fits the viewport, joining
the display lines of that line with single spaces gives the line back. -/
theorem wrap_one_line_join (meas : List Char → Nat) (maxw : Nat)
    (line : List Char)
    (hw : ∀ w ∈ splitSp line, w ≠ [] ∧ ∀ c ∈ w, isPyWs c = false)
    (hfit : ¬ maxw < meas ((splitSp line).headI)) :
    joinWith ' ' (wrap_one_line meas maxw line) = line := by
  unfold wrap_one_line
  split
  · simp_all [joinWith]
  · cases hs : splitSp line with
    | nil => exact absurd hs (splitSp_ne_nil line)
    | cons w1 ws =>
      rw [hs] at hw hfit
      obtain ⟨h1ne, h1ns⟩ := hw w1 (List.mem_cons_self _ _)
      have hws' : ∀ v ∈ ws, v ≠ [] ∧ ∀ c ∈ v, isPyWs c = false :=
        fun v hv => hw v (List.mem_cons_of_mem _ hv)
      rw [wrapWords, if_neg (by simpa using hfit), List.nil_append]
      rw [wrapWords_join meas maxw ws w1 hws' (rstrip_no_ws w1 h1ns)]
      rw [← joinWith_eq_tailJoin, ← hs, joinWith_splitSp]

/-! Lemmas locating the display lines of one logical line inside the full
wrapper output. -/

theorem displayLinesOf_pair_append (a b : List (List Char)) (c d : List Nat)
    (h : a.length = c.length) (j : Nat) :
    displayLinesOf (a ++ b, c ++ d) j =
      displayLinesOf (a, c) j ++ displayLinesOf (b, d) j := by
  unfold displayLinesOf
  rw [List.zip_append h, List.filterMap_append]

theorem displayLinesOf_const_tag (segs : List (List Char)) (i j : Nat) :
    displayLinesOf (segs, segs.map fun _ => i) j =
      if i = j then segs else [] := by
  unfold displayLinesOf
  have h1 : segs.zip (segs.map fun _ => i) = segs.map (fun s => (s, i)) := by
    induction segs with
    | nil => rfl
    | cons s ss ih => simp only [List.map_cons, List.zip_cons_cons, ih]
  rw [h1, List.filterMap_map]
  by_cases h : i = j
  · subst h
    have h2 : ((fun q : List Char × Nat => if q.2 = i then some q.1 else none)
        ∘ fun s => (s, i)) = some := by
      funext s; simp
    rw [h2, List.filterMap_some, if_pos rfl]
  · rw [if_neg h]
    simp [Function.comp, h]

theorem displayLinesOf_from_lt (meas : List Char → Nat) (maxw : Nat)
    (src : List (List Char)) :
    ∀ i j : Nat, j < i →
      displayLinesOf (get_wrapped_lines_from meas maxw i src) j = [] := by
  induction src with
  | nil => intro i j _; simp [get_wrapped_lines_from, displayLinesOf]
  | cons line rest ih =>
    intro i j hj
    rw [get_wrapped_lines_from,
        displayLinesOf_pair_append _ _ _ _ (by simp) j,
        displayLinesOf_const_tag, if_neg (by omega), ih (i + 1) j (by omega)]
    rfl

theorem displayLinesOf_from_get (meas : List Char → Nat) (maxw : Nat)
    (src : List (List Char)) :
    ∀ i k : Nat, k < src.length →
      displayLinesOf (get_wrapped_lines_from meas maxw i src) (i + k) =
        wrap_one_line meas maxw (src.getD k []) := by
  induction src with
  | nil => intro i k hk; simp at hk
  | cons line rest ih =>
    intro i k hk
    rw [get_wrapped_lines_from,
        displayLinesOf_pair_append _ _ _ _ (by simp) (i + k),
        displayLinesOf_const_tag]
    cases k with
    | zero =>
      rw [if_pos (by omega), displayLinesOf_from_lt meas maxw rest (i + 1) (i + 0) (by omega)]
      simp
    | succ k' =>
      rw [if_neg (by omega), show i + (k' + 1) = (i + 1) + k' by omega,
          ih (i + 1) k' (by simpa using hk)]
      simp

/-- The display lines whose source_line_map entry is `i` are exactly the
wrapping of source line `i`. -/
theorem displayLinesOf_get (meas : List Char → Nat) (maxw : Nat)
    (src : List (List Char)) (i : Nat) (hi : i < src.length) :
    displayLinesOf (get_wrapped_lines meas maxw src) i =
      wrap_one_line meas maxw (src.getD i []) := by
  have h := displayLinesOf_from_get meas maxw src 0 i hi
  simpa using h

/-! Helper lemmas for the editor-state and persistence claims. -/

theorem List_set_ne_nil {α : Type} (l : List α) (i : Nat) (a : α)
    (h : l ≠ []) : l.set i a ≠ [] := by
  intro hc
  have hlen := congrArg List.length hc
  rw [List.length_set] at hlen
  exact h (List.length_eq_zero.mp hlen)

theorem py_insert_length {α : Type} (n : Nat) (x : α) (l : List α) :
    (py_insert n x l).length = l.length + 1 := by
  induction l generalizing n with
  | nil => simp [py_insert]
  | cons a l ih =>
    cases n with
    | zero => simp [py_insert]
    | succ m => simp [py_insert, ih m]

theorem py_insert_ne_nil {α : Type} (n : Nat) (x : α) (l : List α) :
    py_insert n x l ≠ [] := by
  intro h
  have hlen := congrArg List.length h
  rw [py_insert_length] at hlen
  simp at hlen

set_option maxHeartbeats 2000000 in
theorem py_splitlines_cons (c : Char) (t : List Char)
    (hc : isLineBreak c = false) :
    py_splitlines (c :: t) =
      match py_splitlines t with
      | [] => [[c]]
      | l :: ls => (c :: l) :: ls := by
  have hcr : c ≠ '\r' := by
    intro h; rw [h] at hc; exact absurd hc (by decide)
  rw [py_splitlines.eq_def]
  split
  · simp_all
  · rename_i heq; exact absurd (by injection heq) hcr
  · rename_i heq2
    injection heq2 with hc2 ht
    subst hc2; subst ht
    rw [if_neg (by simp [hc])]

theorem py_splitlines_line_append (l rest : List Char)
    (h : ∀ c ∈ l, isLineBreak c = false) :
    py_splitlines (l ++ '\n' :: rest) = l :: py_splitlines rest := by
  induction l with
  | nil =>
    show py_splitlines ('\n' :: rest) = [] :: py_splitlines rest
    rfl
  | cons c l' ih =>
    have hc : isLineBreak c = false := h c (List.mem_cons_self _ _)
    have h' : ∀ x ∈ l', isLineBreak x = false :=
      fun x hx => h x (List.mem_cons_of_mem _ hx)
    rw [List.cons_append, py_splitlines_cons c _ hc, ih h']

/-- Splitting the saved text (`'\n'`-joined lines plus a final newline)
recovers the lines, provided none of them contains a line break. -/
theorem py_splitlines_save (lines : List (List Char)) (hne : lines ≠ [])
    (hnb : ∀ l ∈ lines, ∀ c ∈ l, isLineBreak c = false) :
    py_splitlines (save_text lines) = lines := by
  unfold save_text
  induction lines with
  | nil => exact absurd rfl hne
  | cons l ls ih =>
    have hl : ∀ c ∈ l, isLineBreak c = false := hnb l (List.mem_cons_self _ _)
    have hls : ∀ m ∈ ls, ∀ c ∈ m, isLineBreak c = false :=
      fun m hm => hnb m (List.mem_cons_of_mem _ hm)
    cases ls with
    | nil =>
      show py_splitlines (joinWith '\n' [l] ++ ['\n']) = [l]
      have : joinWith '\n' [l] ++ ['\n'] = l ++ '\n' :: [] := by
        simp [joinWith]
      rw [this, py_splitlines_line_append l [] hl]
      rfl
    | cons l2 ls' =>
      rw [joinWith_cons '\n' l (l2 :: ls') (by simp), List.append_assoc,
          List.cons_append, py_splitlines_line_append l _ hl,
          ih (by simp) hls]

/-- Claim C1, counterexample.  The losslessness in the claim fails for a
logical line with a trailing space, which is not the excepted over-wide
no-hard-break case: for the document `["a "]` (with character-count
measurement and width 10, where every word fits), the wrapper emits the
single display line `"a"` because `current_line_text.rstrip()` also strips
the space that `split(' ')` attributed to an empty final word, so the
reconstruction is `"a"` and not the original `"a "`. -/
theorem wrap_trailing_space_counterexample :
    joinWith ' ' (displayLinesOf (get_wrapped_lines List.length 10 [['a', ' ']]) 0) = ['a'] ∧
    (['a'] : List Char) ≠ ['a', ' '] ∧
    (∀ w ∈ splitSp ['a', ' '], List.length w ≤ 10) := by
  refine ⟨by decide, by decide, by decide⟩

/-- Claim C1 (amended).  Wrapping is deterministic (it is modelled by a
pure function of the lines, the measurement function and the width), and
for every document and measurement function, each logical line whose
space-separated words are all nonempty and whitespace-free (no leading,
trailing or consecutive spaces, no tabs or other whitespace inside words)
and whose first word fits `max_width` is reconstructed exactly by
concatenating its display lines with a single space reinserted at each
wrap point.  (Lines with an over-wide first word are the claim's own
excepted no-hard-break case: they additionally receive an empty display
line, see `overwide_first_word_empty_line`.) -/
theorem wrap_reconstruction_amended (meas : List Char → Nat) (maxw : Nat)
    (src : List (List Char)) (i : Nat) (hi : i < src.length)
    (hw : ∀ w ∈ splitSp (src.getD i []), w ≠ [] ∧ ∀ c ∈ w, isPyWs c = false)
    (hfit : ¬ maxw < meas ((splitSp (src.getD i [])).headI)) :
    joinWith ' ' (displayLinesOf (get_wrapped_lines meas maxw src) i) =
      src.getD i [] := by
  rw [displayLinesOf_get meas maxw src i hi]
  exact wrap_one_line_join meas maxw _ hw hfit

/-- Witness for `wrap_reconstruction_amended`: the document `["ab cd"]`
with character-count measurement and width 2 wraps to `["ab", "cd"]`, and
rejoining with one space gives back `"ab cd"`. -/
theorem wrap_reconstruction_amended_witness :
    joinWith ' ' (displayLinesOf
        (get_wrapped_lines List.length 2 [['a', 'b', ' ', 'c', 'd']]) 0) =
      [['a', 'b', ' ', 'c', 'd']].getD 0 [] :=
  wrap_reconstruction_amended List.length 2 [['a', 'b', ' ', 'c', 'd']] 0
    (by decide) (by decide) (by decide)

/-- Claim C10.  A logical line whose first word alone is wider than
`max_width` makes the wrapper flush the still-empty `current_line_text`,
emitting an extra empty display line (mapped to that logical line)
immediately before the display line that starts with the over-wide word,
so such a line always produces at least two display lines. -/
theorem overwide_first_word_empty_line (meas : List Char → Nat) (maxw : Nat)
    (src : List (List Char)) (i : Nat) (hi : i < src.length)
    (hne : src.getD i [] ≠ [])
    (hwide : maxw < meas ((splitSp (src.getD i [])).headI)) :
    ∃ rest, displayLinesOf (get_wrapped_lines meas maxw src) i = [] :: rest ∧
      rest ≠ [] := by
  rw [displayLinesOf_get meas maxw src i hi]
  unfold wrap_one_line
  rw [if_neg hne]
  cases hs : splitSp (src.getD i []) with
  | nil => exact absurd hs (splitSp_ne_nil _)
  | cons w1 ws =>
    rw [hs] at hwide
    rw [wrapWords, if_pos (by simpa using hwide)]
    exact ⟨wrapWords meas maxw ws (w1 ++ [' ']), rfl,
      wrapWords_ne_nil meas maxw ws (w1 ++ [' '])⟩

/-- Witness for `overwide_first_word_empty_line`: the one-line document
`["abc"]` with character-count measurement and width 2 (the word `abc` is
over-wide) wraps to an empty display line followed by `"abc"`. -/
theorem overwide_first_word_empty_line_witness :
    ∃ rest, displayLinesOf (get_wrapped_lines List.length 2 [['a', 'b', 'c']]) 0 =
      [] :: rest ∧ rest ≠ [] :=
  overwide_first_word_empty_line List.length 2 [['a', 'b', 'c']] 0
    (by decide) (by decide) (by decide)

/-- Claim C2, counterexample.  With the document `["aaaa bbbb", "xy"]`
wrapped at width 4 under character-count measurement, the cursor at
logical (0,2) sits on display row 0, column 2.  Display-space movement as
the claim describes it (`display_to_logical` on the next display row with
target column 2) would land on the second wrapped row of line 0, logical
position (0,7); the code's `down` handler instead moves one logical line
and clamps, landing at (1,2). -/
theorem arrow_down_display_counterexample :
    ((handle_editor_input Key.down c2_state).cursor_y,
      (handle_editor_input Key.down c2_state).cursor_x) = (1, 2) ∧
    ((move_down_spec List.length 4 c2_state).cursor_y,
      (move_down_spec List.length 4 c2_state).cursor_x) = (0, 7) ∧
    ((1, 2) : Nat × Nat) ≠ (0, 7) := by
  refine ⟨by decide, by decide, by decide⟩

/-- Claim C2 (amended).  Pressing up or down moves the cursor by one
logical line (when not already at the first or last line), setting the
logical column to the old column clamped to the destination line's length;
the document is unchanged.  Movement is not computed in display space, so
the display column is not preserved across wrapped rows. -/
theorem arrow_vertical_logical_clamp (st : EditorState) :
    (handle_editor_input Key.down st).lines = st.lines ∧
    (handle_editor_input Key.up st).lines = st.lines ∧
    ((handle_editor_input Key.down st).cursor_y,
      (handle_editor_input Key.down st).cursor_x) =
      (if st.cursor_y < st.lines.length - 1
       then (st.cursor_y + 1, min st.cursor_x (st.lines.getD (st.cursor_y + 1) []).length)
       else (st.cursor_y, st.cursor_x)) ∧
    ((handle_editor_input Key.up st).cursor_y,
      (handle_editor_input Key.up st).cursor_x) =
      (if 0 < st.cursor_y
       then (st.cursor_y - 1, min st.cursor_x (st.lines.getD (st.cursor_y - 1) []).length)
       else (st.cursor_y, st.cursor_x)) := by
  refine ⟨?_, ?_, ?_, ?_⟩
  · unfold handle_editor_input; dsimp only; split <;> rfl
  · unfold handle_editor_input; dsimp only; split <;> rfl
  · unfold handle_editor_input; dsimp only
    by_cases h : st.cursor_y < st.lines.length - 1 <;> simp [h]
  · unfold handle_editor_input; dsimp only
    by_cases h : 0 < st.cursor_y <;> simp [h]

/-- Claim C3.  Rendering decision of one loop iteration: a set
`layout_changed` always yields a full repaint; the partial-repaint counter
becomes 0 on a full repaint, increments by one on a partial repaint, is
unchanged when no repaint occurs, and hence never decreases except on a
full repaint. -/
theorem refresh_scheduler_policy (l c t : Bool) (n : Nat) :
    (render_step true c t n).1 = Repaint.full ∧
    ((render_step l c t n).1 = Repaint.full → (render_step l c t n).2 = 0) ∧
    ((render_step l c t n).1 = Repaint.part → (render_step l c t n).2 = n + 1) ∧
    ((render_step l c t n).1 = Repaint.idle → (render_step l c t n).2 = n) ∧
    ((render_step l c t n).1 ≠ Repaint.full → n ≤ (render_step l c t n).2) := by
  unfold render_step
  by_cases h : FULL_REFRESH_INTERVAL ≤ n <;>
    cases l <;> cases c <;> cases t <;> simp [h]

/-- Witness for `refresh_scheduler_policy`: at counter 5, a layout change
gives a full repaint, and a content-only change gives a partial repaint
that increments the counter to 6. -/
theorem refresh_scheduler_policy_witness :
    (render_step true false false 5).1 = Repaint.full ∧
    (render_step false true false 5).2 = 5 + 1 :=
  ⟨(refresh_scheduler_policy true false false 5).1,
   (refresh_scheduler_policy false true false 5).2.2.1 (by decide)⟩

/-- Claim C4, counterexample.  Triggering F1 (word count) at tick 0 and
then F2 (clock) at tick 1 leaves BOTH indicators active (F2 does not
deactivate the word-count indicator), and at tick 2 the displayed text is
the word-count text, not the more recently triggered clock text. -/
theorem indicator_priority_counterexample :
    ((trigger_time_display c4_time_text 1
        (trigger_word_count c4_lines 0 indicators0)).word_count_active = true ∧
     (trigger_time_display c4_time_text 1
        (trigger_word_count c4_lines 0 indicators0)).time_display_active = true) ∧
    get_active_indicator_text 2
      (trigger_time_display c4_time_text 1
        (trigger_word_count c4_lines 0 indicators0)) = words_text c4_lines ∧
    words_text c4_lines ≠ c4_time_text := by
  refine ⟨⟨by decide, by decide⟩, by decide, by decide⟩

/-- Claim C4 (amended).  Triggering F1 or F2 activates its own indicator
and stamps its timer without deactivating or otherwise touching the other;
when the word-count indicator is active and unexpired,
`_get_active_indicator_text` returns the word-count text (fixed display
priority word count over clock over saved), regardless of which indicator
was triggered more recently. -/
theorem indicator_trigger_independent (app : Indicators)
    (lines : List (List Char)) (tt : List Char) (now : Nat) :
    (trigger_time_display tt now app).word_count_active = app.word_count_active ∧
    (trigger_time_display tt now app).word_count_timer = app.word_count_timer ∧
    (trigger_time_display tt now app).current_word_count_text = app.current_word_count_text ∧
    (trigger_word_count lines now app).time_display_active = app.time_display_active ∧
    (trigger_word_count lines now app).word_count_active = true ∧
    (trigger_time_display tt now app).time_display_active = true ∧
    (∀ now2, app.word_count_active = true →
      now2 - app.word_count_timer ≤ WORD_COUNT_DISPLAY_DURATION →
      get_active_indicator_text now2 app = app.current_word_count_text) := by
  refine ⟨rfl, rfl, rfl, rfl, rfl, rfl, ?_⟩
  intro now2 ha hd
  unfold get_active_indicator_text
  rw [if_pos ⟨ha, hd⟩]

/-- Witness for `indicator_trigger_independent`: triggering the clock on a
state whose word-count indicator is active leaves the word-count indicator
active, and the word-count text is the one displayed. -/
theorem indicator_trigger_independent_witness :
    (trigger_time_display c4_time_text 1 indicators_wc).word_count_active =
      indicators_wc.word_count_active ∧
    get_active_indicator_text 5 indicators_wc =
      indicators_wc.current_word_count_text :=
  ⟨(indicator_trigger_independent indicators_wc c4_lines c4_time_text 1).1,
   (indicator_trigger_independent indicators_wc c4_lines c4_time_text 1).2.2.2.2.2.2
     5 (by decide) (by decide)⟩

/-- Claim C5, counterexample.  From `["Hello, world."]` with the cursor at
(0,7), seven presses of Backspace delete the seven characters `"Hello, "`
before the cursor; the document does NOT become `[""]` as the claim
states. -/
theorem backspace_scenario_counterexample :
    (Nat.iterate (handle_editor_input Key.backspace) 7 c5_state).lines ≠ [[]] := by
  decide

/-- Claim C5 (amended).  From `["Hello, world."]` with the cursor at
(0,7), seven presses of Backspace yield the document `["world."]` with the
cursor at (0,0). -/
theorem backspace_scenario_amended :
    (Nat.iterate (handle_editor_input Key.backspace) 7 c5_state).lines =
      [['w', 'o', 'r', 'l', 'd', '.']] ∧
    (Nat.iterate (handle_editor_input Key.backspace) 7 c5_state).cursor_x = 0 ∧
    (Nat.iterate (handle_editor_input Key.backspace) 7 c5_state).cursor_y = 0 := by
  refine ⟨by decide, by decide, by decide⟩

/-- Claim C6.  For every key handled by the editor (arrows, enter,
backspace, character insertion, hotkeys) and every state with a nonempty
document and in-range cursor line, the resulting document is nonempty; and
Backspace with the cursor at line 0, column 0 leaves the document lines
and the cursor position unchanged. -/
theorem editor_nonempty_invariant (key : Key) (st : EditorState)
    (h1 : st.lines ≠ []) (h2 : st.cursor_y < st.lines.length) :
    (handle_editor_input key st).lines ≠ [] ∧
    (st.cursor_x = 0 → st.cursor_y = 0 →
      (handle_editor_input Key.backspace st).lines = st.lines ∧
      (handle_editor_input Key.backspace st).cursor_x = st.cursor_x ∧
      (handle_editor_input Key.backspace st).cursor_y = st.cursor_y) := by
  constructor
  · cases key with
    | up => unfold handle_editor_input; dsimp only; split <;> simpa using h1
    | down => unfold handle_editor_input; dsimp only; split <;> simpa using h1
    | left =>
      unfold handle_editor_input; dsimp only
      split
      · simpa using h1
      · split <;> simpa using h1
    | right =>
      unfold handle_editor_input; dsimp only
      split
      · simpa using h1
      · split <;> simpa using h1
    | f1 => simpa [handle_editor_input] using h1
    | f2 => simpa [handle_editor_input] using h1
    | chars s =>
      unfold handle_editor_input; dsimp only
      exact List_set_ne_nil st.lines _ _ h1
    | enter =>
      unfold handle_editor_input; dsimp only
      exact py_insert_ne_nil _ _ _
    | backspace =>
      unfold handle_editor_input; dsimp only
      split
      · exact List_set_ne_nil st.lines _ _ h1
      · split
        · rename_i hx hy
          apply List_set_ne_nil
          intro hc
          have hlen := congrArg List.length hc
          rw [List.length_eraseIdx_of_lt h2] at hlen
          simp only [List.length_nil] at hlen
          omega
        · simpa using h1
  · intro hx hy
    unfold handle_editor_input; dsimp only
    rw [hx, hy]
    simp

/-- Witness for `editor_nonempty_invariant`: on the one-line document
`["a"]` with the cursor at (0,0), Backspace keeps the document nonempty
and changes neither the lines nor the cursor. -/
theorem editor_nonempty_invariant_witness :
    (handle_editor_input Key.backspace c6_state).lines ≠ [] ∧
    (handle_editor_input Key.backspace c6_state).lines = c6_state.lines ∧
    (handle_editor_input Key.backspace c6_state).cursor_x = c6_state.cursor_x ∧
    (handle_editor_input Key.backspace c6_state).cursor_y = c6_state.cursor_y :=
  ⟨(editor_nonempty_invariant Key.backspace c6_state (by decide) (by decide)).1,
   (editor_nonempty_invariant Key.backspace c6_state (by decide) (by decide)).2
     (by decide) (by decide)⟩

/-- Claim C7, counterexample.  The saves in `_main_loop` are not wrapped
in any try/except: with a writer that fails, both the ESC exit save and
the inactivity autosave step evaluate to the propagated error — the edit
session does not continue past the failed write, contrary to the claim
that the error is reported without terminating the session and retried. -/
theorem save_error_counterexample :
    esc_exit_step (fun _ => Except.error ['E']) true [['a']] =
      Except.error ['E'] ∧
    autosave_step (fun _ => Except.error ['E']) true true [['a']] =
      Except.error ['E'] := by
  exact ⟨rfl, rfl⟩

/-- Claim C7 (amended).  A storage error on the exit save or the
inactivity autosave propagates out of the edit session loop (the session
step produces the error instead of a continuation state, and the
application-level handler then shuts the program down); the failed attempt
itself reads but never modifies the in-memory lines, and on a successful
write the lines survive unchanged with the save indicator activated. -/
theorem save_error_propagates (writeFile : List Char → Except (List Char) Unit)
    (lines : List (List Char)) (e : List Char)
    (hw : writeFile (save_text lines) = Except.error e) :
    esc_exit_step writeFile true lines = Except.error e ∧
    autosave_step writeFile true true lines = Except.error e ∧
    (∀ w2 : List Char → Except (List Char) Unit,
      w2 (save_text lines) = Except.ok () →
      esc_exit_step w2 true lines = Except.ok (lines, true)) := by
  refine ⟨?_, ?_, ?_⟩
  · unfold esc_exit_step
    simp [hw]
  · unfold autosave_step
    simp [hw]
  · intro w2 hw2
    unfold esc_exit_step
    simp [hw2]

/-- Witness for `save_error_propagates`: a writer that always fails with
`"disk"` makes both save steps produce that error, and a writer that
always succeeds keeps the lines and activates the save indicator. -/
theorem save_error_propagates_witness :
    esc_exit_step (fun _ => Except.error ['d']) true [['b']] =
      Except.error ['d'] ∧
    autosave_step (fun _ => Except.error ['d']) true true [['b']] =
      Except.error ['d'] ∧
    esc_exit_step (fun _ => Except.ok ()) true [['b']] =
      Except.ok ([['b']], true) :=
  ⟨(save_error_propagates (fun _ => Except.error ['d']) [['b']] ['d'] rfl).1,
   (save_error_propagates (fun _ => Except.error ['d']) [['b']] ['d'] rfl).2.1,
   (save_error_propagates (fun _ => Except.error ['d']) [['b']] ['d'] rfl).2.2
     (fun _ => Except.ok ()) rfl⟩

/-- Claim C8.  When reading the file fails (file missing or unreadable,
modelled by an `Except.error` read result), `TextEditor.run` catches the
error and starts the session with the single-empty-line document and the
cursor at (0,0); nothing propagates and `_main_loop` is entered normally
with that state. -/
theorem load_error_new_document (e : List Char) (is_journal : Bool)
    (time_text : List Char) :
    load_document (Except.error e) is_journal time_text = ([[]], 0, 0) := rfl

/-- Claim C9.  Saving a nonempty document none of whose lines contains a
line-break character (join with `'\n'` plus a trailing `'\n'`) and loading
the result back (splitlines, with empty content mapped to a single empty
line) reproduces exactly the original list of lines. -/
theorem save_load_roundtrip (lines : List (List Char)) (hne : lines ≠ [])
    (hnb : ∀ l ∈ lines, ∀ c ∈ l, isLineBreak c = false) :
    (load_document (Except.ok (save_text lines)) false []).1 = lines := by
  have h1 : ¬ (save_text lines = []) := by simp [save_text]
  unfold load_document
  dsimp only
  rw [if_neg h1, if_neg (by simp)]
  exact py_splitlines_save lines hne hnb

/-- Witness for `save_load_roundtrip`: the document `["hi", ""]` survives
the save-then-load round trip. -/
theorem save_load_roundtrip_witness :
    (load_document (Except.ok (save_text [['h', 'i'], []])) false []).1 =
      [['h', 'i'], []] :=
  save_load_roundtrip [['h', 'i'], []] (by decide) (by decide)

end AdaWriter
